import Mathlib

/-!
Shallow embedding of the `ceam`/`vivarium` microsimulation kernel
(`engine.py`, `util.py`, `ceam/modules/blood_pressure.py`,
`src/vivarium/interpolation.py`) together with proofs about the event bus,
module ordering, the run loop, aging, rate math and interpolation
validation.

Listeners are identified by natural numbers; event labels are the reserved
labels of the engine.  Python dictionaries holding priorities are modelled
as total functions updated pointwise, and Python `set`s as duplicate-free
lists whose iteration order is abstracted by quantifying over an arbitrary
enumeration (a permutation of the stored elements), since `set` iteration
order is unspecified.
-/

/-- Reserved event labels of the engine: `time_step`, `time_step__continuous`
and `deaths`. -/
inductive Label where
  | time_step
  | time_step__continuous
  | deaths
deriving DecidableEq, Repr

/-- State of `EventHandler` (engine.py): the per-label listener sets
(`self._listeners`, a `defaultdict(set)`), the generic label-less listener
set (`self._generic_listeners`) and the priority dictionary
(`self._listener_priorities`, keyed by `(label, listener)`).  Python sets
are modelled as duplicate-free lists; the priority dictionary as a total
function (the engine only reads keys it has written). -/
structure EventHandler where
  listeners : Label → List Nat
  generic : List Nat
  priorities : Option Label × Nat → Nat

/-- Python `set.add`: insert the element only when it is not already a
member. -/
def addUnique (l : List Nat) (x : Nat) : List Nat :=
  if x ∈ l then l else l ++ [x]

/-- `EventHandler.register_event_listener` (engine.py): add the listener to
the label's set (or to the generic set when no label is given) and write its
priority under the `(label, listener)` key, overwriting any previous
priority. -/
def register_event_listener (h : EventHandler) (listener : Nat)
    (label : Option Label) (priority : Nat) : EventHandler :=
  match label with
  | some lab =>
      { h with
        listeners := fun s =>
          if s = lab then addUnique (h.listeners lab) listener else h.listeners s,
        priorities := fun k =>
          if k = (some lab, listener) then priority else h.priorities k }
  | none =>
      { h with
        generic := addUnique h.generic listener,
        priorities := fun k =>
          if k = (none, listener) then priority else h.priorities k }

/-- Comparison on `(priority, listener)` pairs used by the engine's
`sorted(listeners, key=lambda x: x[0])`. -/
def priLE (a b : Nat × Nat) : Prop := a.1 ≤ b.1

instance : DecidableRel priLE :=
  fun a b => inferInstanceAs (Decidable (a.1 ≤ b.1))

instance : IsTotal (Nat × Nat) priLE :=
  ⟨fun a b => Nat.le_total a.1 b.1⟩

instance : IsTrans (Nat × Nat) priLE :=
  ⟨fun _ _ _ hab hbc => Nat.le_trans hab hbc⟩

/-- `EventHandler.emit_event` (engine.py), first half: the
`(priority, listener)` pair list built from an enumeration `eL` of the
label's listener set and an enumeration `eG` of the generic set, sorted by
priority.  Python's stable `sorted` is modelled by the stable
`List.insertionSort`. -/
def emit_event_pairs (h : EventHandler) (label : Label) (eL eG : List Nat) :
    List (Nat × Nat) :=
  List.insertionSort priLE
    (eL.map (fun l => (h.priorities (some label, l), l)) ++
      eG.map (fun l => (h.priorities (none, l), l)))

/-- `EventHandler.emit_event` (engine.py): the order in which listeners are
invoked, as a list of listener identities. -/
def emit_event (h : EventHandler) (label : Label) (eL eG : List Nat) :
    List Nat :=
  (emit_event_pairs h label eL eG).map Prod.snd

/-- The invocation order of `emit_event` is a permutation of the two
enumerations appended. -/
theorem emit_event_perm (h : EventHandler) (label : Label) (eL eG : List Nat) :
    (emit_event h label eL eG).Perm (eL ++ eG) := by
  unfold emit_event emit_event_pairs
  refine ((List.perm_insertionSort priLE _).map Prod.snd).trans ?_
  simp [Function.comp_def]

/-- Empty event handler: no listeners registered; the priority dictionary is
modelled with default value 0 (never read before being written). -/
def emptyHandler : EventHandler where
  listeners := fun _ => []
  generic := []
  priorities := fun _ => 0

/-- Listeners 1, 2, 3 registered on `time_step` at priorities 5, 10, 1, in
that order (spec scenario 4). -/
def h510 : EventHandler :=
  register_event_listener
    (register_event_listener
      (register_event_listener emptyHandler 1 (some Label.time_step) 5)
      2 (some Label.time_step) 10)
    3 (some Label.time_step) 1

/-- Listeners 1 then 2 registered on `time_step` with the same priority
10. -/
def hEqPri : EventHandler :=
  register_event_listener
    (register_event_listener emptyHandler 1 (some Label.time_step) 10)
    2 (some Label.time_step) 10

/-- Claim C5, counterexample: with listeners 1 then 2 registered in that
order at equal priority 10, the enumeration `[2, 1]` is a legitimate
iteration order of the stored set `{1, 2}` (it is a permutation of the
stored elements), and under it `emit_event` invokes listener 2 before
listener 1 — not the registration order `[1, 2]`.  The engine keeps
listeners in a Python `set`, whose iteration order is unspecified, so equal
priorities are not invoked in registration order. -/
theorem C5_counterexample :
    ([2, 1] : List Nat).Perm (hEqPri.listeners Label.time_step) ∧
    hEqPri.listeners Label.time_step = [1, 2] ∧
    emit_event hEqPri Label.time_step [2, 1] [] = [2, 1] ∧
    ([2, 1] : List Nat) ≠ [1, 2] := by decide

/-- Claim C5 (amended): for every handler, label and enumerations of the
stored label/generic listener sets, `emit_event` invokes exactly the
listeners registered under that label plus the module's generic listeners,
in ascending priority order; and in the concrete scenario of three listeners
registered at priorities 5, 10, 1 the invocation order is the listeners with
priorities 1, 5, 10 under every enumeration of the stored set.  The relative
order of equal-priority listeners follows the unspecified set iteration
order, not the registration order. -/
theorem C5_amended :
    (∀ (h : EventHandler) (lab : Label) (eL eG : List Nat),
        eL.Perm (h.listeners lab) → eG.Perm h.generic →
          (emit_event h lab eL eG).Perm (h.listeners lab ++ h.generic) ∧
          List.Sorted priLE (emit_event_pairs h lab eL eG) ∧
          emit_event h lab eL eG = (emit_event_pairs h lab eL eG).map Prod.snd) ∧
    (∀ e : List Nat, e.Perm [1, 2, 3] →
        emit_event h510 Label.time_step e [] = [3, 1, 2]) := by
  constructor
  · intro h lab eL eG hL hG
    exact ⟨(emit_event_perm h lab eL eG).trans (hL.append hG),
      List.sorted_insertionSort priLE _, rfl⟩
  · intro e he
    have hlen : e.length = 3 := he.length_eq
    obtain ⟨a, b, c, rfl⟩ : ∃ a b c, e = [a, b, c] := by
      match e, hlen with
      | [a, b, c], _ => exact ⟨a, b, c, rfl⟩
    have ha : a ∈ ([1, 2, 3] : List Nat) := he.subset (by simp)
    have hb : b ∈ ([1, 2, 3] : List Nat) := he.subset (by simp)
    have hc : c ∈ ([1, 2, 3] : List Nat) := he.subset (by simp)
    revert he
    fin_cases ha <;> fin_cases hb <;> fin_cases hc <;> decide

/-- Claim C5, witness: the amended theorem applied to the concrete handler
with listeners 1, 2, 3 at priorities 5, 10, 1 and the stored enumeration
itself; the invocation order is `[3, 1, 2]`, i.e. priorities (1, 5, 10). -/
theorem C5_witness :
    ([1, 2, 3] : List Nat).Perm (h510.listeners Label.time_step) ∧
    ([] : List Nat).Perm h510.generic ∧
    ((emit_event h510 Label.time_step [1, 2, 3] []).Perm
        (h510.listeners Label.time_step ++ h510.generic) ∧
      List.Sorted priLE (emit_event_pairs h510 Label.time_step [1, 2, 3] []) ∧
      emit_event h510 Label.time_step [1, 2, 3] [] =
        (emit_event_pairs h510 Label.time_step [1, 2, 3] []).map Prod.snd) ∧
    emit_event h510 Label.time_step [1, 2, 3] [] = [3, 1, 2] :=
  ⟨by decide, by decide,
    C5_amended.1 h510 Label.time_step [1, 2, 3] [] (by decide) (by decide),
    C5_amended.2 [1, 2, 3] (by decide)⟩

theorem mem_addUnique_self (l : List Nat) (x : Nat) : x ∈ addUnique l x := by
  unfold addUnique
  split
  · assumption
  · simp

theorem addUnique_of_mem {l : List Nat} {x : Nat} (h : x ∈ l) :
    addUnique l x = l := if_pos h

theorem count_addUnique (l : List Nat) (x : Nat) (h : l.count x ≤ 1) :
    (addUnique l x).count x = 1 := by
  unfold addUnique
  split
  · next hmem =>
    have h1 : 1 ≤ l.count x := List.count_pos_iff.mpr hmem
    omega
  · next hmem =>
    rw [List.count_append, List.count_eq_zero.mpr hmem]
    simp

/-- The double registration of the same listener under the same label with
two priorities, studied by claim C10. -/
def registerTwice (h : EventHandler) (l : Nat) (lab : Label) (p1 p2 : Nat) :
    EventHandler :=
  register_event_listener (register_event_listener h l (some lab) p1)
    l (some lab) p2

/-- Claim C10: re-registering the same listener under the same label is
idempotent on membership — the listener is stored exactly once (assuming the
prior state stored it at most once, which every reachable handler state
does), the second registration leaves every listener set and the generic set
unchanged and only overwrites the priority under the `(label, listener)` key
— and every emit of that label invokes the listener exactly once (when it is
not also registered generically). -/
theorem C10_idempotent (h : EventHandler) (l : Nat) (lab : Label) (p1 p2 : Nat)
    (hc : (h.listeners lab).count l ≤ 1) (hg : l ∉ h.generic) :
    ((registerTwice h l lab p1 p2).listeners lab).count l = 1 ∧
    (∀ lab' : Label, (registerTwice h l lab p1 p2).listeners lab'
        = (register_event_listener h l (some lab) p1).listeners lab') ∧
    (registerTwice h l lab p1 p2).generic = h.generic ∧
    (registerTwice h l lab p1 p2).priorities (some lab, l) = p2 ∧
    (∀ k, k ≠ (some lab, l) → (registerTwice h l lab p1 p2).priorities k
        = (register_event_listener h l (some lab) p1).priorities k) ∧
    (∀ eL eG : List Nat,
        eL.Perm ((registerTwice h l lab p1 p2).listeners lab) →
        eG.Perm ((registerTwice h l lab p1 p2).generic) →
        (emit_event (registerTwice h l lab p1 p2) lab eL eG).count l = 1) := by
  have hmm : l ∈ (register_event_listener h l (some lab) p1).listeners lab := by
    show l ∈ if lab = lab then addUnique (h.listeners lab) l else h.listeners lab
    rw [if_pos rfl]
    exact mem_addUnique_self _ _
  have hsame : ∀ lab' : Label, (registerTwice h l lab p1 p2).listeners lab'
      = (register_event_listener h l (some lab) p1).listeners lab' := by
    intro lab'
    show (if lab' = lab
            then addUnique ((register_event_listener h l (some lab) p1).listeners lab) l
            else (register_event_listener h l (some lab) p1).listeners lab')
        = (register_event_listener h l (some lab) p1).listeners lab'
    by_cases hl : lab' = lab
    · rw [if_pos hl, addUnique_of_mem hmm, hl]
    · rw [if_neg hl]
  have hcount : ((registerTwice h l lab p1 p2).listeners lab).count l = 1 := by
    rw [hsame lab]
    show (if lab = lab then addUnique (h.listeners lab) l else h.listeners lab).count l = 1
    rw [if_pos rfl]
    exact count_addUnique _ _ hc
  have hgen : (registerTwice h l lab p1 p2).generic = h.generic := rfl
  refine ⟨hcount, hsame, hgen, ?_, ?_, ?_⟩
  · show (if ((some lab, l) : Option Label × Nat) = (some lab, l) then p2
          else (register_event_listener h l (some lab) p1).priorities (some lab, l)) = p2
    rw [if_pos rfl]
  · intro k hk
    show (if k = (some lab, l) then p2
          else (register_event_listener h l (some lab) p1).priorities k)
        = (register_event_listener h l (some lab) p1).priorities k
    rw [if_neg hk]
  · intro eL eG hL hG
    have hperm := emit_event_perm (registerTwice h l lab p1 p2) lab eL eG
    rw [hperm.count_eq, List.count_append, hL.count_eq, hcount]
    have hnot : l ∉ eG := fun hmem => hg (hG.subset hmem)
    rw [List.count_eq_zero.mpr hnot]

/-- Claim C10, witness: the idempotence theorem applied to the empty handler,
listener 7 on `deaths`, priorities 3 then 8. -/
theorem C10_witness :
    ((emptyHandler.listeners Label.deaths).count 7 ≤ 1) ∧
    (7 ∉ emptyHandler.generic) ∧
    (((registerTwice emptyHandler 7 Label.deaths 3 8).listeners Label.deaths).count 7 = 1 ∧
      (∀ lab' : Label, (registerTwice emptyHandler 7 Label.deaths 3 8).listeners lab'
          = (register_event_listener emptyHandler 7 (some Label.deaths) 3).listeners lab') ∧
      (registerTwice emptyHandler 7 Label.deaths 3 8).generic = emptyHandler.generic ∧
      (registerTwice emptyHandler 7 Label.deaths 3 8).priorities (some Label.deaths, 7) = 8 ∧
      (∀ k, k ≠ (some Label.deaths, 7) →
          (registerTwice emptyHandler 7 Label.deaths 3 8).priorities k
            = (register_event_listener emptyHandler 7 (some Label.deaths) 3).priorities k) ∧
      (∀ eL eG : List Nat,
          eL.Perm ((registerTwice emptyHandler 7 Label.deaths 3 8).listeners Label.deaths) →
          eG.Perm ((registerTwice emptyHandler 7 Label.deaths 3 8).generic) →
          (emit_event (registerTwice emptyHandler 7 Label.deaths 3 8) Label.deaths eL eG).count 7 = 1)) :=
  ⟨by decide, by decide,
    C10_idempotent emptyHandler 7 Label.deaths 3 8 (by decide) (by decide)⟩

/-- Calling convention of the `emit_event` loop (engine.py):
`listener(label, mask.copy(), simulation)`.  A listener is modelled as a
function from the mask it is handed and the simulation state to the mask
object as it leaves the listener (listeners may mutate their mask argument
for local filtering) and the updated simulation state.  The loop hands every
listener `mask.copy()` — a fresh copy of the emitting call's own mask, which
the loop never reassigns — so the listener's returned (possibly mutated)
mask is discarded and only the state update survives.  The first component
of the result records the actual mask argument passed to each listener, in
invocation order; the second is the final simulation state. -/
def emit_masks {σ : Type} (fs : List (List Bool → σ → List Bool × σ))
    (mask : List Bool) (s : σ) : List (List Bool) × σ :=
  match fs with
  | [] => ([], s)
  | f :: rest =>
      let r := f mask s
      let rec_ := emit_masks rest mask r.2
      (mask :: rec_.1, rec_.2)

/-- Claim C6: every listener invoked by a single emit receives its own copy
of the emitting call's mask: whatever mask mutations any listener performs
(the first component of its result), the mask handed to every other listener
of the same emit — and the caller's original mask — is the unchanged
original.  In the embedding, the list of masks actually passed is
`replicate`d copies of the original, for every list of listeners, every
mask and every simulation state. -/
theorem C6_mask_copy {σ : Type} (fs : List (List Bool → σ → List Bool × σ))
    (mask : List Bool) (s : σ) :
    (emit_masks fs mask s).1 = List.replicate fs.length mask := by
  induction fs generalizing s with
  | nil => rfl
  | cons f rest ih =>
      simp [emit_masks, ih, List.replicate_succ]

/-- A population row as contributed by `BaseSimulationModule` (engine.py):
real-valued `fractional_age` (modelled exactly over the rationals), integer
`age`, and the `alive` flag. -/
structure Simulant where
  fractional_age : Rat
  age : Int
  alive : Bool
deriving DecidableEq, Repr

/-- Truncation toward zero, the semantics of pandas
`.astype(int)` on a float column. -/
def truncQ (q : Rat) : Int :=
  if 0 ≤ q then ⌊q⌋ else -⌊-q⌋

/-- `BaseSimulationModule.advance_age` (engine.py): the priority-0
`time_step` listener.
`simulation.population.loc[mask, 'fractional_age'] += last_time_step.days/365.0`
adds `days / 365` to the fractional age of every row selected by the mask,
and `simulation.population.age = simulation.population.fractional_age.astype(int)`
then recomputes the integer age of every row (masked or not) by truncation.
`days` is the integer day count of the step's timedelta. -/
def advance_age (days : Nat) (mask : List Bool) (pop : List Simulant) :
    List Simulant :=
  let aged := List.zipWith
    (fun s m =>
      if m then { s with fractional_age := s.fractional_age + (days : Rat) / 365 }
      else s)
    pop mask
  aged.map (fun s => { s with age := truncQ s.fractional_age })

theorem truncQ_of_nonneg {q : Rat} (h : 0 ≤ q) : truncQ q = ⌊q⌋ := if_pos h

theorem zipWith_replicate_true {α : Type} (f : α → Bool → α) (l : List α) :
    List.zipWith f l (List.replicate l.length true) = l.map (fun a => f a true) := by
  induction l with
  | nil => rfl
  | cons a l ih => simp [List.replicate_succ, ih]

/-- Claim C7: on a `time_step` whose mask is all-true (which is what
`Simulation.run` emits), `advance_age` increases the fractional age of every
simulant — in particular of every living one — by exactly `Δt.days / 365`,
and afterwards `age = ⌊fractional_age⌋` holds for every simulant (pandas
`astype(int)` truncates toward zero, which agrees with `floor` on the
non-negative ages of the data model).  The `alive` column is untouched. -/
theorem C7_aging (days : Nat) (pop : List Simulant)
    (hnn : ∀ s ∈ pop, 0 ≤ s.fractional_age) :
    (advance_age days (List.replicate pop.length true) pop).length = pop.length ∧
    (∀ i s s', pop.get? i = some s →
        (advance_age days (List.replicate pop.length true) pop).get? i = some s' →
        s'.fractional_age = s.fractional_age + (days : Rat) / 365 ∧
        s'.age = ⌊s'.fractional_age⌋ ∧
        s'.alive = s.alive) := by
  have hrw : advance_age days (List.replicate pop.length true) pop
      = pop.map (fun s =>
          { s with
            fractional_age := s.fractional_age + (days : Rat) / 365,
            age := truncQ (s.fractional_age + (days : Rat) / 365) }) := by
    unfold advance_age
    rw [zipWith_replicate_true, List.map_map]
    rfl
  constructor
  · rw [hrw, List.length_map]
  · intro i s s' hs hs'
    rw [hrw, List.get?_map, hs] at hs'
    have hmem : s ∈ pop := List.get?_mem hs
    have hpos : (0 : Rat) ≤ s.fractional_age + (days : Rat) / 365 := by
      have : (0 : Rat) ≤ (days : Rat) / 365 := by positivity
      have := hnn s hmem
      linarith
    cases hs'
    refine ⟨rfl, ?_, rfl⟩
    show truncQ (s.fractional_age + (days : Rat) / 365) = _
    rw [truncQ_of_nonneg hpos]

/-- Claim C7, witness: a population of one living simulant aged 40 with a
365-day step; the fractional age becomes 41 and the integer age is its
floor. -/
theorem C7_witness :
    (∀ s ∈ [({ fractional_age := 40, age := 40, alive := true } : Simulant)],
        0 ≤ s.fractional_age) ∧
    ((advance_age 365 (List.replicate
        [({ fractional_age := 40, age := 40, alive := true } : Simulant)].length true)
        [({ fractional_age := 40, age := 40, alive := true } : Simulant)]).length
      = [({ fractional_age := 40, age := 40, alive := true } : Simulant)].length ∧
    (∀ i s s',
        [({ fractional_age := 40, age := 40, alive := true } : Simulant)].get? i = some s →
        (advance_age 365 (List.replicate
            [({ fractional_age := 40, age := 40, alive := true } : Simulant)].length true)
            [({ fractional_age := 40, age := 40, alive := true } : Simulant)]).get? i = some s' →
        s'.fractional_age = s.fractional_age + ((365 : Nat) : Rat) / 365 ∧
        s'.age = ⌊s'.fractional_age⌋ ∧
        s'.alive = s.alive)) :=
  ⟨by decide, C7_aging 365 [{ fractional_age := 40, age := 40, alive := true }]
    (by decide)⟩

/-- `rate_to_probability` (util.py): `1 - np.exp(-rate)`, modelled exactly
over the reals. -/
noncomputable def rate_to_probability (rate : Real) : Real :=
  1 - Real.exp (-rate)

/-- Claim C8: `to_probability(rate) = 1 - exp(-rate)` maps 0 to 0, is
monotone in the rate, tends to 1 as the rate tends to infinity, never
exceeds 1 (indeed is strictly below 1 for every real rate), and is bounded
in `[0, 1)` on non-negative rates. -/
theorem C8_to_probability :
    rate_to_probability 0 = 0 ∧
    Monotone rate_to_probability ∧
    Filter.Tendsto rate_to_probability Filter.atTop (nhds 1) ∧
    (∀ r : Real, rate_to_probability r < 1) ∧
    (∀ r : Real, 0 ≤ r → rate_to_probability r ∈ Set.Ico (0 : Real) 1) := by
  have hlt : ∀ r : Real, rate_to_probability r < 1 := by
    intro r
    unfold rate_to_probability
    have := Real.exp_pos (-r)
    linarith
  refine ⟨?_, ?_, ?_, hlt, ?_⟩
  · unfold rate_to_probability
    rw [neg_zero, Real.exp_zero]
    ring
  · intro a b hab
    unfold rate_to_probability
    have : Real.exp (-b) ≤ Real.exp (-a) := Real.exp_le_exp.mpr (neg_le_neg hab)
    linarith
  · have h1 : Filter.Tendsto (fun r : Real => Real.exp (-r))
        Filter.atTop (nhds 0) :=
      Real.tendsto_exp_atBot.comp Filter.tendsto_neg_atTop_atBot
    have h2 := Filter.Tendsto.sub
      (tendsto_const_nhds : Filter.Tendsto (fun _ : Real => (1 : Real))
        Filter.atTop (nhds 1)) h1
    simpa [rate_to_probability] using h2
  · intro r hr
    refine ⟨?_, hlt r⟩
    unfold rate_to_probability
    have : Real.exp (-r) ≤ 1 := by
      rw [show (1 : Real) = Real.exp 0 by rw [Real.exp_zero]]
      exact Real.exp_le_exp.mpr (neg_nonpos.mpr hr)
    linarith

/-- Claim C8, witness: the laws applied at the concrete rates 0 and 1. -/
theorem C8_witness :
    rate_to_probability 0 = 0 ∧
    (0 : Real) ≤ 1 ∧
    rate_to_probability 1 ∈ Set.Ico (0 : Real) 1 :=
  ⟨C8_to_probability.1, by norm_num,
    C8_to_probability.2.2.2.2 1 (by norm_num)⟩

/-- `from_yearly_rate` (util.py): convert a yearly rate to a per-step rate,
`rate * (time_step.total_seconds() / (60*60*24*365.0))`.  The timedelta is
represented by its `total_seconds` value. -/
def from_yearly_rate (rate : Rat) (total_seconds : Rat) : Rat :=
  rate * (total_seconds / (60 * 60 * 24 * 365))

/-- Modelled from the spec: the per-cause incidence rate pipeline of §4.F.
The engine under `src/` (engine.py, `Simulation.incidence_rates`) only folds
the modules' additive contributions over a zero frame and converts with
`from_yearly_rate`; the value-mutator/mediation engine that consumes the
`incidence_mediation_factors` and `register_value_mutator` declarations of
`ceam/modules/blood_pressure.py` is not part of the sources.  Following the
spec's composition order, a per-simulant rate is built by folding, over a
zero frame: the additive contributions of all modules, then the
multiplicative adjustments of the risk-factor modules, then one `(1 - m)`
damping per mediation factor `m` declared for the cause, and finally the
yearly-to-step conversion. -/
def incidence_rate_step (additive multiplicative mediation : List Rat)
    (total_seconds : Rat) : Rat :=
  from_yearly_rate
    (mediation.foldl (fun r m => r * (1 - m))
      (multiplicative.foldl (fun r a => r * a)
        (additive.foldl (fun r a => r + a) 0)))
    total_seconds

theorem foldl_add_eq (c : Rat) (l : List Rat) :
    l.foldl (fun r a => r + a) c = c + l.sum := by
  induction l generalizing c with
  | nil => simp
  | cons a l ih => rw [List.foldl_cons, ih, List.sum_cons]; ring

theorem foldl_mul_eq (c : Rat) (l : List Rat) :
    l.foldl (fun r a => r * a) c = c * l.prod := by
  induction l generalizing c with
  | nil => simp
  | cons a l ih => rw [List.foldl_cons, ih, List.prod_cons]; ring

theorem foldl_mediation_eq (c : Rat) (l : List Rat) :
    l.foldl (fun r m => r * (1 - m)) c = c * (l.map (fun m => 1 - m)).prod := by
  induction l generalizing c with
  | nil => simp
  | cons a l ih => rw [List.foldl_cons, ih, List.map_cons, List.prod_cons]; ring

/-- Claim C2: for every collection of per-simulant additive contributions,
multiplicative risk-factor adjustments and declared mediation factors, the
per-step rate produced by the pipeline is the yearly-to-step conversion of
(sum of additive contributions) x (product of multiplicative adjustments)
x (product of `(1 - m)` over the declared mediation factors); and in the
concrete scenario of a single additive annual rate 0.2 with a single
declared mediation factor 0.3 on the cause, the final step rate is
`from_yearly(0.2 * (1 - 0.3), Δt)`. -/
theorem C2_pipeline (additive multiplicative mediation : List Rat)
    (total_seconds : Rat) :
    incidence_rate_step additive multiplicative mediation total_seconds
      = from_yearly_rate
          (additive.sum * multiplicative.prod *
            (mediation.map (fun m => 1 - m)).prod)
          total_seconds ∧
    incidence_rate_step [1/5] [] [3/10] total_seconds
      = from_yearly_rate ((1/5) * (1 - 3/10)) total_seconds := by
  constructor
  · unfold incidence_rate_step
    rw [foldl_add_eq, foldl_mul_eq, foldl_mediation_eq, zero_add]
  · unfold incidence_rate_step from_yearly_rate
    norm_num

/-- The ways `sort_modules` (util.py) can raise.  `keyError` models the
uncaught Python `KeyError` from `modules_registry[dependency]` when the
dependency identity is not a key of the registry (the surrounding
`try/except` only catches `ValueError`).  `nameError` models the uncaught
Python `NameError` raised by the `except ValueError` branch, whose recursive
call `inner_sort(sorted_modules, modules, modules_registry[dependency])`
reads the undefined name `modules`; that branch is reached whenever a
dependency is registered but not yet present in the accumulated sorted
list (so that `sorted_modules.index(...)` raises `ValueError`). -/
inductive SortErr where
  | keyError
  | nameError
deriving DecidableEq, Repr

/-- Python `list.index` returning `none` instead of raising `ValueError`
when the element is absent. -/
def listIndex? : List Nat → Nat → Option Nat
  | [], _ => none
  | x :: xs, a => if x = a then some 0 else (listIndex? xs a).map (fun i => i + 1)

/-- The `for dependency in current.DEPENDENCIES` loop of
`sort_modules.inner_sort` (util.py): starting from `i = 0`, look every
dependency up in the registry (an absent key raises `KeyError`), take the
running maximum of its index in the sorted list, and raise `NameError` from
the buggy `except ValueError` branch when the dependency is not in the
sorted list yet.  Modules are identified by naturals and the registry by the
list of registered identities. -/
def depScan (registry : List Nat) (sorted : List Nat) :
    List Nat → Nat → Except SortErr Nat
  | [], i => Except.ok i
  | d :: ds, i =>
      if d ∈ registry then
        match listIndex? sorted d with
        | some j => depScan registry sorted ds (max i j)
        | none => Except.error SortErr.nameError
      else Except.error SortErr.keyError

/-- `sort_modules.inner_sort` (util.py): a module with no declared
dependencies is prepended to the sorted list; otherwise it is inserted right
after the maximal index of its dependencies
(`sorted_modules[0:i+1] + [current] + sorted_modules[i+1:]`). -/
def inner_sort (deps : Nat → List Nat) (registry : List Nat)
    (sorted : List Nat) (current : Nat) : Except SortErr (List Nat) :=
  if deps current = [] then Except.ok (current :: sorted)
  else
    match depScan registry sorted (deps current) 0 with
    | Except.ok i => Except.ok (sorted.take (i + 1) ++ current :: sorted.drop (i + 1))
    | Except.error e => Except.error e

/-- `sort_modules` (util.py): pop the modules to sort one by one (the pop
order of the Python `set` is represented by the order of the input list) and
fold them into the sorted list with `inner_sort`. -/
def sort_modules (deps : Nat → List Nat) (registry : List Nat) :
    List Nat → List Nat → Except SortErr (List Nat)
  | [], sorted => Except.ok sorted
  | c :: rest, sorted =>
      match inner_sort deps registry sorted c with
      | Except.ok s => sort_modules deps registry rest s
      | Except.error e => Except.error e

/-- `Simulation.register_module` (engine.py): the registry holds every
registered module including the base module (identity `base`); the base
module is removed from the set to sort and prepended
(`self._ordered_modules.insert(0, ...)`) after `sort_modules` returns. -/
def ordered (deps : Nat → List Nat) (base : Nat) (others : List Nat) :
    Except SortErr (List Nat) :=
  match sort_modules deps (base :: others) others [] with
  | Except.ok s => Except.ok (base :: s)
  | Except.error e => Except.error e

/-- Dependency map for claim C3's failing input: module 1 declares a
dependency on the base module 0; every dependency is registered and the
graph is acyclic. -/
def depsOnBase : Nat → List Nat := fun n => if n = 1 then [0] else []

/-- Dependency map for claim C4's failing input: module 1 declares a
dependency on identity 5, which is not registered. -/
def depsUnreg : Nat → List Nat := fun n => if n = 1 then [5] else []

/-- Claim C3, evaluation at the failing input: with base module 0 and module
1 whose only declared dependency is the (registered) base module — an
acyclic graph with every dependency registered — `ordered` does not return a
linear extension at all: the base module is never an element of the
accumulated sorted list, so `list.index` raises `ValueError` and the
`except` branch raises `NameError` on the undefined name `modules`
(util.py).  The claim (and the spec's §4.D) promise `[base, 1]`. -/
theorem C3_code_eval :
    (∀ m ∈ ([1] : List Nat), ∀ d ∈ depsOnBase m, d ∈ ([0, 1] : List Nat)) ∧
    ordered depsOnBase 0 [1] = Except.error SortErr.nameError :=
  ⟨by decide, by rfl⟩

/-- Claim C4, evaluation at the failing input: with module 1 declaring a
dependency on the unregistered identity 5, the module order computation
fails — but with the uncaught Python `KeyError` from
`modules_registry[dependency]` (util.py), not with the
`UnresolvedDependencyError` the claim names (no such error type exists in
the sources). -/
theorem C4_code_eval :
    ((5 : Nat) ∉ ([0, 1] : List Nat)) ∧
    ordered depsUnreg 0 [1] = Except.error SortErr.keyError :=
  ⟨by decide, by rfl⟩

/-- Failure modes of `Interpolation.__call__`
(src/vivarium/interpolation.py).  `missingParameter` models the
`ValueError` raised by `validate_call_data` when the query lacks a
continuous parameter column or a categorical key column (the spec's
`MissingParameterError`); `missingKey` models the `KeyError` raised by
`self.interpolations[key]` when a key-tuple of the query had no partition at
construction time (the spec's `MissingKeyError`). -/
inductive CallErr where
  | missingParameter
  | missingKey
deriving DecidableEq, Repr

/-- The construction-time state of an `Interpolation`
(src/vivarium/interpolation.py) that the call-time checks consult: the
categorical key columns, the continuous parameter columns, and the
key-tuples for which a sub-table interpolation bundle was built.  Column
identities and categorical values are represented by naturals; a key-tuple
is the list of values of the key columns. -/
structure InterpState where
  key_columns : List Nat
  parameter_columns : List Nat
  keys : List (List Nat)

/-- The `Interpolation.__init__` grouping
(`self._data.groupby(list(self.key_columns))`): one interpolation bundle per
distinct key-tuple occurring in the construction data (empty partitions are
skipped and get no bundle). -/
def buildInterpState (key_columns parameter_columns : List Nat)
    (dataKeys : List (List Nat)) : InterpState :=
  { key_columns := key_columns,
    parameter_columns := parameter_columns,
    keys := dataKeys.dedup }

/-- `validate_call_data` (src/vivarium/interpolation.py): the call fails
when the continuous parameter columns are not all present in the query's
columns, or when there are key columns and they are not all present. -/
def validate_call_data (qcols key_columns parameter_columns : List Nat) :
    Option CallErr :=
  if ¬ parameter_columns ⊆ qcols then some CallErr.missingParameter
  else if key_columns ≠ [] ∧ ¬ key_columns ⊆ qcols then
    some CallErr.missingParameter
  else none

/-- `Interpolation.__call__` (src/vivarium/interpolation.py): validate the
query's columns, group the query by the key columns (`qKeys` lists the
key-tuple of each query row), and look each nonempty group's key-tuple up in
the bundles built at construction; an absent key raises `KeyError`.  The
numeric evaluation itself is irrelevant to claim C9 and the call returns the
processed groups. -/
def interp_call (it : InterpState) (qcols : List Nat) (qKeys : List (List Nat)) :
    Except CallErr (List (List Nat)) :=
  match validate_call_data qcols it.key_columns it.parameter_columns with
  | some e => Except.error e
  | none =>
      if it.key_columns = [] then Except.ok []
      else
        let groups := qKeys.dedup
        if groups.all (fun k => decide (k ∈ it.keys)) then Except.ok groups
        else Except.error CallErr.missingKey

/-- Claim C9: for every constructed interpolation and every query, the call
fails with the missing-parameter error whenever the query lacks one of the
continuous parameter columns or (when key columns exist) one of the
categorical key columns; and when the columns are all present it fails with
the missing-key error whenever some key-tuple occurring in the query had no
partition at construction time — the keys are never silently extrapolated
over. -/
theorem C9_call_errors (kc pc : List Nat) (dataKeys : List (List Nat))
    (qcols : List Nat) (qKeys : List (List Nat)) :
    ((¬ pc ⊆ qcols ∨ (kc ≠ [] ∧ ¬ kc ⊆ qcols)) →
        interp_call (buildInterpState kc pc dataKeys) qcols qKeys
          = Except.error CallErr.missingParameter) ∧
    (pc ⊆ qcols → kc ⊆ qcols → kc ≠ [] → (∃ k ∈ qKeys, k ∉ dataKeys) →
        interp_call (buildInterpState kc pc dataKeys) qcols qKeys
          = Except.error CallErr.missingKey) := by
  constructor
  · intro hmiss
    by_cases hp : pc ⊆ qcols
    · have hk : kc ≠ [] ∧ ¬ kc ⊆ qcols := by
        rcases hmiss with hp' | hk
        · exact absurd hp hp'
        · exact hk
      simp [interp_call, validate_call_data, buildInterpState, hp, hk.1, hk.2]
    · simp [interp_call, validate_call_data, buildInterpState, hp]
  · intro hp hkc hne hex
    obtain ⟨k, hkq, hkd⟩ := hex
    have hkdedup : k ∈ qKeys.dedup := List.mem_dedup.mpr hkq
    have hfalse : (qKeys.dedup.all fun x => decide (x ∈ dataKeys.dedup)) = false := by
      rcases Bool.eq_false_or_eq_true (qKeys.dedup.all fun x => decide (x ∈ dataKeys.dedup)) with h | h
      · exact absurd (List.mem_dedup.mp
          (of_decide_eq_true (List.all_eq_true.mp h k hkdedup))) hkd
      · exact h
    simp [interp_call, validate_call_data, buildInterpState, hp, hkc, hne, hfalse]
    exact ⟨k, hkq, hkd⟩

/-- Claim C9, witness: with key column 1, parameter column 2 and a single
construction partition keyed `[10]`, a query lacking the parameter column
fails with the missing-parameter error, and a well-columned query whose
key-tuple `[11]` had no partition fails with the missing-key error. -/
theorem C9_witness :
    (interp_call (buildInterpState [1] [2] [[10]]) [1] [[10]]
        = Except.error CallErr.missingParameter) ∧
    (interp_call (buildInterpState [1] [2] [[10]]) [1, 2] [[11]]
        = Except.error CallErr.missingKey) :=
  ⟨(C9_call_errors [1] [2] [[10]] [1] [[10]]).1 (Or.inl (by decide)),
    (C9_call_errors [1] [2] [[10]] [1, 2] [[11]]).2 (by decide) (by decide)
      (by decide) ⟨[11], by decide, by decide⟩⟩

/-- The per-run state that `Simulation.run` (engine.py) mutates, as far as
the step loop observes it: the population's `year` column (a single value,
since the loop sets every row to `current_time.year`), the `yld_by_year`
accumulator (a `defaultdict(float)`, modelled as a total function that is 0
off the written keys), and the trace of events emitted by the driver, each
with the mask it was emitted with. -/
structure RunState where
  popYear : Int
  yld_by_year : Int → Rat
  trace : List (Label × List Bool)

/-- The `while self.current_time <= end_time` loop of `Simulation.run`
(engine.py).  `year` abstracts `current_time.year` as a function of the
clock; `ylds k` abstracts the value returned by the k-th call to
`self.years_lived_with_disability()` — the sum of the modules' contributions
over the living subset of the population as it stands after that step's
listeners ran; `size` is the population row count; `fuel` bounds the
recursion.  Each iteration, in source order: set the population `year`
column, emit `time_step` with the all-true mask
`np.array([True]*len(self.population))`, assign
`self.yld_by_year[self.current_time.year] = self.years_lived_with_disability()`,
and advance `self.current_time += time_step`. -/
def runLoop (year : Int → Int) (ylds : Nat → Rat) (size : Nat)
    (endT dt : Int) : Nat → Int → Nat → RunState → RunState
  | 0, _, _, s => s
  | fuel + 1, t, k, s =>
      if t ≤ endT then
        runLoop year ylds size endT dt fuel (t + dt) (k + 1)
          { popYear := year t,
            yld_by_year := fun y => if y = year t then ylds k else s.yld_by_year y,
            trace := s.trace ++ [(Label.time_step, List.replicate size true)] }
      else s

/-- `Simulation.run` (engine.py): set the clock to `start_time` and run the
step loop.  The `year` column starts at 0 (`reset_population` joins a zero
`year` column) and `yld_by_year` is an empty `defaultdict(float)`. -/
def run (year : Int → Int) (ylds : Nat → Rat) (size : Nat)
    (start endT dt : Int) (fuel : Nat) : RunState :=
  runLoop year ylds size endT dt fuel start 0
    { popYear := 0, yld_by_year := fun _ => 0, trace := [] }

/-- Modelled from the spec: the step loop as §4.G of the specification
describes it, for comparison with `runLoop`.  Each iteration emits
`time_step` and then `time_step__continuous`, and accumulates
`YLD[year] += Σ module.yld_contribution(alive subset)` instead of
assigning it. -/
def runSpecLoop (year : Int → Int) (ylds : Nat → Rat) (size : Nat)
    (endT dt : Int) : Nat → Int → Nat → RunState → RunState
  | 0, _, _, s => s
  | fuel + 1, t, k, s =>
      if t ≤ endT then
        runSpecLoop year ylds size endT dt fuel (t + dt) (k + 1)
          { popYear := year t,
            yld_by_year := fun y =>
              if y = year t then s.yld_by_year y + ylds k else s.yld_by_year y,
            trace := s.trace ++
              [(Label.time_step, List.replicate size true),
                (Label.time_step__continuous, List.replicate size true)] }
      else s

/-- Modelled from the spec: `run` according to §4.G, for comparison with
`run`. -/
def run_spec (year : Int → Int) (ylds : Nat → Rat) (size : Nat)
    (start endT dt : Int) (fuel : Nat) : RunState :=
  runSpecLoop year ylds size endT dt fuel start 0
    { popYear := 0, yld_by_year := fun _ => 0, trace := [] }

/-- A clock whose `year` is the constant 2020: both steps of the
counterexample run fall in the same calendar year. -/
def yearConst : Int → Int := fun _ => 2020

/-- Every call to `years_lived_with_disability()` returns 1. -/
def yldOne : Nat → Rat := fun _ => 1

/-- Claim C1, counterexample: a run over two steps (`start = 0`,
`end = 1`, `Δt = 1`) that both fall in year 2020, with every YLD query
returning 1.  The loop of engine.py emits only `time_step` — no
`time_step__continuous` event is ever emitted — and *assigns*
`yld_by_year[2020] = 1` on each step rather than accumulating, so the final
value is 1 where the claim's accumulation (modelled by `run_spec`) yields
2. -/
theorem C1_counterexample :
    (Label.time_step__continuous ∉ (run yearConst yldOne 1 0 1 1 5).trace.map Prod.fst) ∧
    ((run yearConst yldOne 1 0 1 1 5).trace.map Prod.fst
      ≠ (run_spec yearConst yldOne 1 0 1 1 5).trace.map Prod.fst) ∧
    ((run yearConst yldOne 1 0 1 1 5).yld_by_year 2020 = 1) ∧
    ((run_spec yearConst yldOne 1 0 1 1 5).yld_by_year 2020 = 2) ∧
    ((1 : Rat) ≠ 2) := by
  refine ⟨by decide, by decide, by decide, ?_, by decide⟩
  norm_num [run_spec, runSpecLoop, yearConst, yldOne]

theorem foldl_congr_fun {α : Type} {f g : α → Nat → α}
    (h : ∀ b x, f b x = g b x) :
    ∀ (l : List Nat) (a : α), l.foldl f a = l.foldl g a := by
  intro l
  induction l with
  | nil => intro a; rfl
  | cons x l ih => intro a; rw [List.foldl_cons, List.foldl_cons, h, ih]

theorem foldl_overwrite {α : Type} (P : Nat → Prop) [DecidablePred P]
    (g : Nat → α) :
    ∀ (l : List Nat) (a : α),
      l.foldl (fun acc j => if P j then g j else acc) a =
        match l.reverse.find? (fun j => decide (P j)) with
        | some j => g j
        | none => a := by
  intro l
  induction l with
  | nil => intro a; rfl
  | cons x l ih =>
      intro a
      rw [List.foldl_cons, ih, List.reverse_cons, List.find?_append]
      cases hf : l.reverse.find? (fun j => decide (P j)) with
      | some j => simp [Option.or]
      | none =>
          by_cases hx : P x <;> simp [Option.or, List.find?_cons, hx]

theorem runLoop_unroll (year : Int → Int) (ylds : Nat → Rat) (size : Nat)
    (endT dt : Int) :
    ∀ (n fuel : Nat) (t : Int) (k : Nat) (s : RunState), n ≤ fuel →
      (∀ j : Nat, j < n → t + (j : Int) * dt ≤ endT) →
      (endT < t + (n : Int) * dt) →
      runLoop year ylds size endT dt fuel t k s =
        { popYear := match n with
            | 0 => s.popYear
            | m + 1 => year (t + (m : Int) * dt),
          yld_by_year := fun y =>
            (List.range n).foldl
              (fun (acc : Rat) (j : Nat) =>
                if y = year (t + (j : Int) * dt) then ylds (k + j) else acc)
              (s.yld_by_year y),
          trace := s.trace ++
            List.replicate n (Label.time_step, List.replicate size true) } := by
  intro n
  induction n with
  | zero =>
      intro fuel t k s _ _ hout
      have ht : ¬ t ≤ endT := by
        simp only [Nat.cast_zero, zero_mul, add_zero] at hout
        omega
      cases fuel with
      | zero => cases s; simp [runLoop, List.range_zero]
      | succ f => cases s; simp [runLoop, ht, List.range_zero]
  | succ m ih =>
      intro fuel t k s hfuel hin hout
      have ht : t ≤ endT := by
        have := hin 0 (Nat.succ_pos m)
        simpa using this
      cases fuel with
      | zero => omega
      | succ f =>
          have hstep : runLoop year ylds size endT dt (f + 1) t k s
              = runLoop year ylds size endT dt f (t + dt) (k + 1)
                  { popYear := year t,
                    yld_by_year := fun y =>
                      if y = year t then ylds k else s.yld_by_year y,
                    trace := s.trace ++
                      [(Label.time_step, List.replicate size true)] } := by
            rw [runLoop, if_pos ht]
          have hin' : ∀ j : Nat, j < m → (t + dt) + (j : Int) * dt ≤ endT := by
            intro j hj
            have h1 := hin (j + 1) (by omega)
            have h2 : t + ((j + 1 : Nat) : Int) * dt = (t + dt) + (j : Int) * dt := by
              push_cast
              ring
            linarith [h1, h2.symm.le, h2.le]
          have hout' : endT < (t + dt) + (m : Int) * dt := by
            have h2 : t + ((m + 1 : Nat) : Int) * dt = (t + dt) + (m : Int) * dt := by
              push_cast
              ring
            linarith [hout, h2.le, h2.symm.le]
          rw [hstep, ih f (t + dt) (k + 1) _ (by omega) hin' hout']
          congr 1
          · cases m with
            | zero => simp
            | succ m' =>
                show year ((t + dt) + (m' : Int) * dt)
                    = year (t + ((m' + 1 : Nat) : Int) * dt)
                congr 1
                push_cast
                ring
          · funext y
            show (List.range m).foldl
                (fun (acc : Rat) (j : Nat) =>
                  if y = year ((t + dt) + (j : Int) * dt) then ylds ((k + 1) + j) else acc)
                (if y = year t then ylds k else s.yld_by_year y)
              = (List.range (m + 1)).foldl
                (fun (acc : Rat) (j : Nat) =>
                  if y = year (t + (j : Int) * dt) then ylds (k + j) else acc)
                (s.yld_by_year y)
            rw [List.range_succ_eq_map, List.foldl_cons, List.foldl_map]
            have hzero : (if y = year (t + ((0 : Nat) : Int) * dt)
                then ylds (k + 0) else s.yld_by_year y)
                = (if y = year t then ylds k else s.yld_by_year y) := by
              norm_num
            rw [hzero]
            refine foldl_congr_fun ?_ (List.range m) _ |>.symm
            intro b j
            have h2 : t + ((j + 1 : Nat) : Int) * dt = (t + dt) + (j : Int) * dt := by
              push_cast
              ring
            have h3 : k + (j + 1) = (k + 1) + j := by omega
            rw [show (Nat.succ j) = j + 1 from rfl, h2, h3]
          · show s.trace ++ [(Label.time_step, List.replicate size true)] ++ _ = _
            rw [List.append_assoc, List.replicate_succ]
            rfl

/-- Claim C1 (amended): when the loop runs for `n` steps (the clock stays
within `end` for the first `n` ticks and leaves it at tick `n`), each
iteration of `Simulation.run`, in order: sets the population `year` column
to `current_time.year`, emits `time_step` with an all-true mask, *assigns*
`yld_by_year[current year]` the modules' summed YLD over the living subset
(overwriting any value an earlier step of the same year wrote — it does not
accumulate), and advances the clock by `Δt`.  No `time_step__continuous`
event is emitted by the driver.  Consequently the trace is exactly `n`
`time_step` emissions with all-true masks, the final `year` column is the
year of the last step, and the final `yld_by_year[y]` is the YLD value
computed at the *last* step falling in year `y` (or 0 when no step does). -/
theorem C1_run_amended (year : Int → Int) (ylds : Nat → Rat) (size : Nat)
    (start endT dt : Int) (fuel n : Nat)
    (hfuel : n ≤ fuel)
    (hin : ∀ j : Nat, j < n → start + (j : Int) * dt ≤ endT)
    (hout : endT < start + (n : Int) * dt) :
    (run year ylds size start endT dt fuel).trace
      = List.replicate n (Label.time_step, List.replicate size true) ∧
    Label.time_step__continuous ∉
      ((run year ylds size start endT dt fuel).trace.map Prod.fst) ∧
    (0 < n → (run year ylds size start endT dt fuel).popYear
        = year (start + ((n - 1 : Nat) : Int) * dt)) ∧
    (∀ y : Int, (run year ylds size start endT dt fuel).yld_by_year y
        = match (List.range n).reverse.find?
              (fun (j : Nat) => decide (y = year (start + (j : Int) * dt))) with
          | some j => ylds j
          | none => 0) := by
  have hrw := runLoop_unroll year ylds size endT dt n fuel start 0
    { popYear := 0, yld_by_year := fun _ => 0, trace := [] } hfuel hin hout
  unfold run
  rw [hrw]
  refine ⟨by simp, ?_, ?_, ?_⟩
  · simp [List.mem_replicate]
  · intro hn
    cases n with
    | zero => omega
    | succ m => simp
  · intro y
    show (List.range n).foldl
        (fun (acc : Rat) (j : Nat) =>
          if y = year (start + (j : Int) * dt) then ylds (0 + j) else acc) 0
      = _
    rw [foldl_overwrite (fun (j : Nat) => y = year (start + (j : Int) * dt))
      (fun (j : Nat) => ylds (0 + j)) (List.range n) 0]
    cases hf : (List.range n).reverse.find?
        (fun (j : Nat) => decide (y = year (start + (j : Int) * dt))) with
    | some j => simp
    | none => rfl

/-- Claim C1, witness: the amended run-loop characterization applied to the
two-step run of the counterexample configuration (`start = 0`, `end = 1`,
`Δt = 1`, both steps in year 2020, every YLD query returning 1). -/
theorem C1_witness :
    ((2 : Nat) ≤ 5) ∧
    (∀ j : Nat, j < 2 → (0 : Int) + (j : Int) * 1 ≤ 1) ∧
    ((1 : Int) < 0 + ((2 : Nat) : Int) * 1) ∧
    ((run yearConst yldOne 1 0 1 1 5).trace
        = List.replicate 2 (Label.time_step, List.replicate 1 true) ∧
      Label.time_step__continuous ∉
        ((run yearConst yldOne 1 0 1 1 5).trace.map Prod.fst) ∧
      (0 < 2 → (run yearConst yldOne 1 0 1 1 5).popYear
          = yearConst (0 + ((2 - 1 : Nat) : Int) * 1)) ∧
      (∀ y : Int, (run yearConst yldOne 1 0 1 1 5).yld_by_year y
          = match (List.range 2).reverse.find?
                (fun (j : Nat) => decide (y = yearConst (0 + (j : Int) * 1))) with
            | some j => yldOne j
            | none => 0)) :=
  ⟨by decide, by decide, by decide,
    C1_run_amended yearConst yldOne 1 0 1 1 5 2 (by decide) (by decide) (by decide)⟩
